import Mathlib

/-!
Verification of the in-memory books CRUD service (src/index.js).

The Store is the process-wide list of Book records.  Request bodies are
modelled as records of optional fields (a JSON body may omit any field);
JavaScript truthiness on body fields is modelled by truthyN (numbers:
0 and absent are falsy) and truthyS (strings: the empty string and
absent are falsy).  String.toLowerCase is modelled by lowerStr and
String.prototype.includes by containsSub.  Each route handler becomes a
function from the store (and the request data) to a Response paired
with the resulting store.
-/

/-- A Book record as stored: id, title, author (src/index.js line 60). -/
structure Book where
  id : Nat
  title : String
  author : String
deriving DecidableEq, Repr

/-- The Store: the ordered in-process list of Books. -/
abbrev Store := List Book

/-- A JSON request body for create/update: all fields optional. -/
structure Body where
  id : Option Nat
  title : Option String
  author : Option String
deriving DecidableEq, Repr

/-- An HTTP response: a list payload, a single-Book payload, an error
with message, or an empty 204-style response. -/
inductive Response where
  | booksR (status : Nat) (bs : List Book)
  | bookR (status : Nat) (b : Book)
  | errR (status : Nat) (msg : String)
  | emptyR (status : Nat)
deriving DecidableEq, Repr

/-- JavaScript truthiness of an optional numeric field: absent and 0 are
falsy (used for the body id checks in the POST and PUT handlers). -/
def truthyN : Option Nat → Bool
  | none => false
  | some n => n != 0

/-- JavaScript truthiness of an optional string field: absent and the
empty string are falsy. -/
def truthyS : Option String → Bool
  | none => false
  | some s => s != ""

/-- Models String.prototype.toLowerCase: lowercases every character. -/
def lowerStr (s : String) : String := ⟨s.data.map Char.toLower⟩

/-- Models String.prototype.includes: containsSub needle hay is true iff
needle occurs as a contiguous substring of hay. -/
def containsSub (needle : List Char) : List Char → Bool
  | [] => needle.isEmpty
  | c :: t => needle.isPrefixOf (c :: t) || containsSub needle t

/-- Models the JS idiom x = incoming || fallback for string fields:
an absent or empty incoming value leaves the fallback. -/
def orElseStr (o : Option String) (d : String) : String :=
  match o with
  | none => d
  | some s => if s = "" then d else s

/-- The seeded initial store (src/index.js lines 59-62). -/
def initialBooks : Store :=
  [⟨1, "1984", "George Orwell"⟩, ⟨2, "The Hobbit", "J.R.R. Tolkien"⟩]

/-- GET /api/books handler (lines 70-76) for nonnegative page and limit:
slices the store from (page-1)*limit, taking limit records. -/
def listBooks (s : Store) (page limit : Nat) : Response :=
  .booksR 200 ((s.drop ((page - 1) * limit)).take limit)

/-- The duplicate test of the POST handler (lines 123-126):
case-insensitive equality of both title and author. -/
def dupWith (title author : String) (bk : Book) : Bool :=
  lowerStr bk.title == lowerStr title && lowerStr bk.author == lowerStr author

/-- POST /api/books handler (lines 113-139): rejects a truthy body id
(400), missing title or author (400), a case-insensitive duplicate
(409); otherwise appends a Book with id = length + 1 and returns 201. -/
def createBook (s : Store) (b : Body) : Response × Store :=
  if truthyN b.id then
    (.errR 400 "ID must not be provided when creating a book", s)
  else
    let title := b.title.getD ""
    let author := b.author.getD ""
    if title = "" ∨ author = "" then
      (.errR 400 "Both title and author are required.", s)
    else
      match s.find? (dupWith title author) with
      | some _ =>
        (.errR 409 "A book with the same title and author already exists", s)
      | none =>
        let newBook : Book := ⟨s.length + 1, title, author⟩
        (.bookR 201 newBook, s ++ [newBook])

/-- In-place partial update of a stored Book (lines 154-155): only
truthy (non-empty) incoming fields overwrite; the id is untouched. -/
def applyBody (bk : Book) (b : Body) : Book :=
  ⟨bk.id, orElseStr b.title bk.title, orElseStr b.author bk.author⟩

/-- books.find followed by in-place mutation (lines 151-155): updates
the first Book whose id matches, returning it and the new store. -/
def updateFirst (pid : Nat) (b : Body) : List Book → Option (Book × List Book)
  | [] => none
  | bk :: rest =>
    if bk.id = pid then
      let u := applyBody bk b
      some (u, u :: rest)
    else
      match updateFirst pid b rest with
      | none => none
      | some (u, rest') => some (u, bk :: rest')

/-- PUT /api/books/:id handler (lines 143-158): rejects a truthy body id
differing from the path id (400), a missing Book (404); otherwise
partially updates the first matching Book and returns it with 200. -/
def updateBook (s : Store) (pid : Nat) (b : Body) : Response × Store :=
  if truthyN b.id && b.id.getD 0 != pid then
    (.errR 400 "Updating book ID is not allowed.", s)
  else
    match updateFirst pid b s with
    | none => (.errR 404 "Book not found", s)
    | some (u, s') => (.bookR 200 u, s')

/-- GET /api/books/:id handler (lines 106-110). -/
def getBook (s : Store) (pid : Nat) : Response :=
  match s.find? (fun bk => bk.id == pid) with
  | none => .errR 404 "Book not found"
  | some bk => .bookR 200 bk

/-- books.findIndex followed by splice(index, 1) (lines 169-172):
removes the first Book whose id matches. -/
def removeFirst (pid : Nat) : List Book → Option (List Book)
  | [] => none
  | bk :: rest =>
    if bk.id = pid then some rest
    else
      match removeFirst pid rest with
      | none => none
      | some rest' => some (bk :: rest')

/-- DELETE /api/books/:id handler (lines 168-174). -/
def deleteBook (s : Store) (pid : Nat) : Response × Store :=
  match removeFirst pid s with
  | none => (.errR 404 "Book not found", s)
  | some s' => (.emptyR 204, s')

/-- DELETE /api/books/reset handler (lines 162-165): truncates the
store. -/
def deleteAllBooks (_s : Store) : Response × Store := (.emptyR 204, [])

/-- The per-Book search predicate of the GET /api/books/search handler
(lines 86-96): for whichever query fields are truthy, a case-insensitive
substring match on the corresponding Book field. -/
def bookMatches (tq aq : Option String) (bk : Book) : Bool :=
  (if truthyS tq then
    containsSub (lowerStr (tq.getD "")).data (lowerStr bk.title).data
   else true) &&
  (if truthyS aq then
    containsSub (lowerStr (aq.getD "")).data (lowerStr bk.author).data
   else true)

/-- GET /api/books/search handler (lines 79-103): 400 when neither query
field is truthy, 404 when no Book matches, otherwise 200 with the
matching Books. -/
def searchBooks (s : Store) (tq aq : Option String) : Response :=
  if !truthyS tq && !truthyS aq then
    .errR 400 "Please provide at least a title or author for search"
  else
    let filtered := s.filter (bookMatches tq aq)
    if filtered.isEmpty then .errR 404 "Books not found for search"
    else .booksR 200 filtered

/-- requireAuth middleware (lines 16-20): passes iff some credential
header is present. -/
def requireAuthOk (token : Option String) : Bool := token.isSome

/-- requireAdmin middleware (lines 22-28): passes iff the credential
equals the fixed admin value. -/
def requireAdminOk (token : Option String) : Bool :=
  token == some "Bearer admin-token"

/-- The stores reachable from the seeded initial store by the mutating
handlers (create, update, delete-one, delete-all), auth assumed passed. -/
inductive Reachable : Store → Prop where
  | init : Reachable initialBooks
  | create (b : Body) {s : Store} : Reachable s → Reachable (createBook s b).2
  | update (pid : Nat) (b : Body) {s : Store} :
      Reachable s → Reachable (updateBook s pid b).2
  | delOne (pid : Nat) {s : Store} : Reachable s → Reachable (deleteBook s pid).2
  | delAll {s : Store} : Reachable s → Reachable []

/-- The stores reachable without the delete-one handler. -/
inductive ReachableND : Store → Prop where
  | init : ReachableND initialBooks
  | create (b : Body) {s : Store} : ReachableND s → ReachableND (createBook s b).2
  | update (pid : Nat) (b : Body) {s : Store} :
      ReachableND s → ReachableND (updateBook s pid b).2
  | delAll {s : Store} : ReachableND s → ReachableND []

/-- The ids of a list of Books are consecutive starting at k. -/
def idsFromN (k : Nat) : List Nat → Bool
  | [] => true
  | n :: rest => n == k && idsFromN (k + 1) rest

/-! ### Helper lemmas -/

theorem lowerStr_ne_empty {s : String} (h : s ≠ "") : lowerStr s ≠ "" := by
  intro hc
  apply h
  apply String.ext
  have hd : (lowerStr s).data = [] := by rw [hc]
  simpa [lowerStr, List.map_eq_nil_iff] using hd

theorem orElseStr_ne_empty {o : Option String} {d : String} (h : d ≠ "") :
    orElseStr o d ≠ "" := by
  cases o with
  | none => simpa [orElseStr] using h
  | some s =>
    by_cases hs : s = "" <;> simp [orElseStr, hs, h]

theorem create_cases (s : Store) (b : Body) :
    ((createBook s b).2 = s ∧ ∃ st msg, (createBook s b).1 = .errR st msg) ∨
      ∃ t a, t ≠ "" ∧ a ≠ "" ∧
        (createBook s b).1 = .bookR 201 ⟨s.length + 1, t, a⟩ ∧
        (createBook s b).2 = s ++ [⟨s.length + 1, t, a⟩] := by
  unfold createBook
  by_cases h1 : truthyN b.id = true
  · simp [h1]
  · simp only [Bool.not_eq_true] at h1
    simp only [h1]
    by_cases h2 : b.title.getD "" = "" ∨ b.author.getD "" = ""
    · simp [h2]
    · push_neg at h2
      simp only [h2.1, h2.2, or_self, if_false]
      cases hf : s.find? (dupWith (b.title.getD "") (b.author.getD "")) with
      | none => exact Or.inr ⟨b.title.getD "", b.author.getD "", h2.1, h2.2, by simp [hf], by simp [hf]⟩
      | some bk => simp [hf]

theorem updateFirst_map_id {pid : Nat} {b : Body} :
    ∀ {s s' : List Book} {u : Book}, updateFirst pid b s = some (u, s') →
      s'.map Book.id = s.map Book.id := by
  intro s
  induction s with
  | nil => intro s' u h; simp [updateFirst] at h
  | cons bk rest ih =>
    intro s' u h
    by_cases hid : bk.id = pid
    · simp only [updateFirst, if_pos hid] at h
      cases h
      simp [applyBody]
    · simp only [updateFirst, if_neg hid] at h
      cases hr : updateFirst pid b rest with
      | none => rw [hr] at h; cases h
      | some p =>
        rw [hr] at h
        cases h
        simp [ih hr]

theorem update_store_map_id (s : Store) (pid : Nat) (b : Body) :
    ((updateBook s pid b).2).map Book.id = s.map Book.id := by
  unfold updateBook
  by_cases hg : (truthyN b.id && b.id.getD 0 != pid) = true
  · simp [hg]
  · simp only [Bool.not_eq_true] at hg
    simp only [hg]
    cases hu : updateFirst pid b s with
    | none => simp
    | some p => simpa using updateFirst_map_id (by simpa using hu)

theorem removeFirst_subset {pid : Nat} :
    ∀ {s s' : List Book}, removeFirst pid s = some s' →
      ∀ bk ∈ s', bk ∈ s := by
  intro s
  induction s with
  | nil => intro s' h; simp [removeFirst] at h
  | cons b0 rest ih =>
    intro s' h bk hbk
    by_cases hid : b0.id = pid
    · simp only [removeFirst, if_pos hid] at h
      cases h
      exact List.mem_cons_of_mem _ hbk
    · simp only [removeFirst, if_neg hid] at h
      cases hr : removeFirst pid rest with
      | none => rw [hr] at h; cases h
      | some rest' =>
        rw [hr] at h
        cases h
        rcases List.mem_cons.mp hbk with h1 | h2
        · exact h1 ▸ List.mem_cons_self _ _
        · exact List.mem_cons_of_mem _ (ih hr _ h2)

theorem idsFromN_ge : ∀ {l : List Nat} {k : Nat}, idsFromN k l = true →
    ∀ x ∈ l, k ≤ x := by
  intro l
  induction l with
  | nil => intro k _ x hx; cases hx
  | cons n rest ih =>
    intro k h x hx
    simp only [idsFromN, Bool.and_eq_true, beq_iff_eq] at h
    rcases List.mem_cons.mp hx with h1 | h2
    · omega
    · have := ih h.2 x h2
      omega

theorem idsFromN_lt : ∀ {l : List Nat} {k : Nat}, idsFromN k l = true →
    ∀ x ∈ l, x < k + l.length := by
  intro l
  induction l with
  | nil => intro k _ x hx; cases hx
  | cons n rest ih =>
    intro k h x hx
    simp only [idsFromN, Bool.and_eq_true, beq_iff_eq] at h
    rcases List.mem_cons.mp hx with h1 | h2
    · simp only [h1, h.1, List.length_cons]; omega
    · have := ih h.2 x h2
      simp only [List.length_cons]
      omega

theorem idsFromN_nodup : ∀ {l : List Nat} {k : Nat}, idsFromN k l = true →
    l.Nodup := by
  intro l
  induction l with
  | nil => intro k _; exact List.nodup_nil
  | cons n rest ih =>
    intro k h
    simp only [idsFromN, Bool.and_eq_true, beq_iff_eq] at h
    refine List.nodup_cons.mpr ⟨?_, ih h.2⟩
    intro hmem
    have := idsFromN_ge h.2 n hmem
    omega

theorem idsFromN_append_one : ∀ {l : List Nat} {k : Nat}, idsFromN k l = true →
    idsFromN k (l ++ [k + l.length]) = true := by
  intro l
  induction l with
  | nil => intro k _; simp [idsFromN]
  | cons n rest ih =>
    intro k h
    simp only [idsFromN, Bool.and_eq_true, beq_iff_eq] at h
    have := @ih (k + 1) h.2
    simp only [List.cons_append, idsFromN, Bool.and_eq_true, beq_iff_eq]
    constructor
    · exact h.1
    · have harr : k + (n :: rest).length = (k + 1) + rest.length := by
        simp [List.length_cons]; omega
      rw [harr]
      exact this

/-- Invariant of delete-one-free execution: the stored ids are exactly
1, 2, ..., length in order. -/
theorem reachableND_idsFromN : ∀ {s : Store}, ReachableND s →
    idsFromN 1 (s.map Book.id) = true := by
  intro s h
  induction h with
  | init => decide
  | create b hr ih =>
    rcases create_cases _ b with ⟨hsame, -⟩ | ⟨t, a, _, _, _, hstore⟩
    · rw [hsame]; exact ih
    · rw [hstore]
      simp only [List.map_append, List.map_cons, List.map_nil]
      have hlen : (‹Store›.length + 1) = 1 + (List.map Book.id ‹Store›).length := by
        simp [List.length_map]; omega
      rw [hlen]
      exact idsFromN_append_one ih
  | update pid b hr ih =>
    rw [update_store_map_id]
    exact ih
  | delAll hr ih => decide

/-- All stored Books have non-empty title and author, at every reachable
store. -/
theorem reachable_nonempty_fields : ∀ {s : Store}, Reachable s →
    ∀ bk ∈ s, bk.title ≠ "" ∧ bk.author ≠ "" := by
  intro s h
  induction h with
  | init =>
    intro bk hbk
    simp only [initialBooks, List.mem_cons, List.mem_singleton, List.not_mem_nil, or_false] at hbk
    rcases hbk with h1 | h2
    · rw [h1]; exact ⟨by decide, by decide⟩
    · rw [h2]; exact ⟨by decide, by decide⟩
  | create b hr ih =>
    intro bk hbk
    rcases create_cases _ b with ⟨hsame, -⟩ | ⟨t, a, ht, ha, _, hstore⟩
    · rw [hsame] at hbk; exact ih bk hbk
    · rw [hstore] at hbk
      rcases List.mem_append.mp hbk with h1 | h2
      · exact ih bk h1
      · simp only [List.mem_singleton] at h2
        rw [h2]
        exact ⟨ht, ha⟩
  | update pid b hr ih =>
    intro bk hbk
    revert hbk
    unfold updateBook
    by_cases hg : (truthyN b.id && b.id.getD 0 != pid) = true
    · simp only [hg, if_true]
      intro hbk
      exact ih bk hbk
    · simp only [Bool.not_eq_true] at hg
      simp only [hg]
      cases hu : updateFirst pid b ‹Store› with
      | none =>
        intro hbk
        exact ih bk hbk
      | some p =>
        intro hbk
        have : ∀ {s0 s' : List Book} {u : Book},
            (∀ bk0 ∈ s0, bk0.title ≠ "" ∧ bk0.author ≠ "") →
            updateFirst pid b s0 = some (u, s') →
            ∀ bk0 ∈ s', bk0.title ≠ "" ∧ bk0.author ≠ "" := by
          intro s0
          induction s0 with
          | nil => intro s' u _ hup; simp [updateFirst] at hup
          | cons b0 rest ihs =>
            intro s' u hne hup bk0 hbk0
            by_cases hid : b0.id = pid
            · simp only [updateFirst, if_pos hid] at hup
              cases hup
              rcases List.mem_cons.mp hbk0 with h1 | h2
              · rw [h1]
                have hb0 := hne b0 (List.mem_cons_self _ _)
                exact ⟨orElseStr_ne_empty hb0.1, orElseStr_ne_empty hb0.2⟩
              · exact hne bk0 (List.mem_cons_of_mem _ h2)
            · simp only [updateFirst, if_neg hid] at hup
              cases hr2 : updateFirst pid b rest with
              | none => rw [hr2] at hup; cases hup
              | some p2 =>
                rw [hr2] at hup
                cases hup
                rcases List.mem_cons.mp hbk0 with h1 | h2
                · rw [h1]; exact hne b0 (List.mem_cons_self _ _)
                · exact ihs (fun x hx => hne x (List.mem_cons_of_mem _ hx))
                    (by rw [hr2]) bk0 h2
        simp only [hu] at hbk
        exact this ih (by simpa using hu) bk hbk
  | delOne pid hr ih =>
    intro bk hbk
    revert hbk
    unfold deleteBook
    cases hrm : removeFirst pid ‹Store› with
    | none =>
      intro hbk
      exact ih bk hbk
    | some s' =>
      intro hbk
      exact ih bk (removeFirst_subset hrm bk (by simpa using hbk))
  | delAll hr ih => intro bk hbk; cases hbk

theorem updateFirst_none {pid : Nat} {b : Body} :
    ∀ {s : List Book}, (∀ bk ∈ s, bk.id ≠ pid) →
      updateFirst pid b s = none := by
  intro s
  induction s with
  | nil => intro _; rfl
  | cons b0 rest ih =>
    intro h
    have h0 : b0.id ≠ pid := h b0 (List.mem_cons_self _ _)
    simp only [updateFirst, if_neg h0]
    rw [ih (fun x hx => h x (List.mem_cons_of_mem _ hx))]

theorem removeFirst_none {pid : Nat} :
    ∀ {s : List Book}, (∀ bk ∈ s, bk.id ≠ pid) →
      removeFirst pid s = none := by
  intro s
  induction s with
  | nil => intro _; rfl
  | cons b0 rest ih =>
    intro h
    have h0 : b0.id ≠ pid := h b0 (List.mem_cons_self _ _)
    simp only [removeFirst, if_neg h0]
    rw [ih (fun x hx => h x (List.mem_cons_of_mem _ hx))]

theorem find?_updateFirst {pid : Nat} {b : Body} :
    ∀ {s : List Book} {bk : Book},
      s.find? (fun x => x.id == pid) = some bk →
      ∃ s', updateFirst pid b s = some (applyBody bk b, s') := by
  intro s
  induction s with
  | nil => intro bk h; simp [List.find?] at h
  | cons b0 rest ih =>
    intro bk h
    rw [List.find?_cons] at h
    by_cases hid : b0.id = pid
    · have hb : (b0.id == pid) = true := by simpa using hid
      simp only [hb] at h
      cases h
      exact ⟨applyBody b0 b :: rest, by simp [updateFirst, if_pos hid]⟩
    · have hb : (b0.id == pid) = false := by simpa using hid
      simp only [hb] at h
      rcases ih h with ⟨s', hs'⟩
      exact ⟨b0 :: s', by simp [updateFirst, if_neg hid, hs']⟩

/-! ### Claim theorems -/

/-- C1 counterexample: the claim that ids are unique in every reachable
store is false.  Deleting Book 1 and then creating a fresh Book reaches
the store with two distinct Books both carrying id 2, because create
assigns id = length + 1. -/
theorem C1_counterexample :
    Reachable [⟨2, "The Hobbit", "J.R.R. Tolkien"⟩, ⟨2, "Dune", "Frank Herbert"⟩] ∧
    ¬ (List.map Book.id
        [(⟨2, "The Hobbit", "J.R.R. Tolkien"⟩ : Book),
         ⟨2, "Dune", "Frank Herbert"⟩]).Nodup := by
  constructor
  · have h : ([⟨2, "The Hobbit", "J.R.R. Tolkien"⟩, ⟨2, "Dune", "Frank Herbert"⟩] : Store) =
        (createBook (deleteBook initialBooks 1).2
          ⟨none, some "Dune", some "Frank Herbert"⟩).2 := by decide
    rw [h]
    exact .create _ (.delOne 1 .init)
  · decide

/-- C1 (amended): in every store reachable by create, update and
delete-all alone (no delete-one), the id field is unique among all
stored Books. -/
theorem C1_unique_ids {s : Store} (h : ReachableND s) :
    (s.map Book.id).Nodup :=
  idsFromN_nodup (reachableND_idsFromN h)

theorem C1_unique_ids_witness :
    (List.map Book.id initialBooks).Nodup :=
  C1_unique_ids ReachableND.init

/-- C2 counterexample: the claim that a valid create assigns an id
strictly greater than every previously assigned id is false.  After
deleting Book 1, the store still holds the Book with id 2, yet a valid
create succeeds and returns a new Book whose id is again 2. -/
theorem C2_counterexample :
    Reachable [⟨2, "The Hobbit", "J.R.R. Tolkien"⟩] ∧
    (createBook [⟨2, "The Hobbit", "J.R.R. Tolkien"⟩]
      ⟨none, some "Dune", some "Frank Herbert"⟩).1 =
        .bookR 201 ⟨2, "Dune", "Frank Herbert"⟩ ∧
    (⟨2, "The Hobbit", "J.R.R. Tolkien"⟩ : Book) ∈
      ([⟨2, "The Hobbit", "J.R.R. Tolkien"⟩] : Store) ∧
    ¬ ((2 : Nat) < 2) := by
  refine ⟨?_, by decide, by decide, by decide⟩
  have h : ([⟨2, "The Hobbit", "J.R.R. Tolkien"⟩] : Store) =
      (deleteBook initialBooks 1).2 := by decide
  rw [h]
  exact .delOne 1 .init

/-- C2 (amended): in every store reachable without delete-one, a
successful create returns a Book whose id is strictly greater than the
id of every Book in the store at the time of creation. -/
theorem C2_new_id_greater {s : Store} {b : Body} {u : Book} {s' : Store}
    (h : ReachableND s) (hc : createBook s b = (.bookR 201 u, s')) :
    ∀ bk ∈ s, bk.id < u.id := by
  intro bk hbk
  rcases create_cases s b with ⟨-, st, msg, herr⟩ | ⟨t, a, -, -, hresp, -⟩
  · rw [hc] at herr
    cases herr
  · rw [hc] at hresp
    cases hresp
    have hin : bk.id ∈ s.map Book.id := List.mem_map_of_mem _ hbk
    have := idsFromN_lt (reachableND_idsFromN h) bk.id hin
    simp only [List.length_map] at this
    simpa using by omega

theorem C2_new_id_greater_witness :
    (⟨1, "1984", "George Orwell"⟩ : Book).id <
      (⟨3, "Dune", "Frank Herbert"⟩ : Book).id :=
  C2_new_id_greater ReachableND.init
    (show createBook initialBooks ⟨none, some "Dune", some "Frank Herbert"⟩ =
      (.bookR 201 ⟨3, "Dune", "Frank Herbert"⟩,
        initialBooks ++ [⟨3, "Dune", "Frank Herbert"⟩]) by decide)
    ⟨1, "1984", "George Orwell"⟩ (by decide)

/-- C3 counterexample: a create request whose body carries id 0 is not
rejected; because 0 is falsy the id check passes, the Book is created
with id 3 and the store changes. -/
theorem C3_counterexample :
    (createBook initialBooks ⟨some 0, some "Dune", some "Frank Herbert"⟩).1 =
      .bookR 201 ⟨3, "Dune", "Frank Herbert"⟩ ∧
    (createBook initialBooks ⟨some 0, some "Dune", some "Frank Herbert"⟩).2 ≠
      initialBooks := by
  decide

/-- C3 (amended): for every create request whose body contains a truthy
(non-zero) id, the create handler fails with status 400 and the store is
unchanged. -/
theorem C3_truthy_id_rejected (s : Store) (b : Body)
    (h : truthyN b.id = true) :
    createBook s b =
      (.errR 400 "ID must not be provided when creating a book", s) := by
  unfold createBook
  simp [h]

theorem C3_truthy_id_rejected_witness :
    createBook initialBooks ⟨some 5, some "Dune", some "Frank Herbert"⟩ =
      (.errR 400 "ID must not be provided when creating a book",
        initialBooks) :=
  C3_truthy_id_rejected initialBooks ⟨some 5, some "Dune", some "Frank Herbert"⟩
    (by decide)

/-- C4 counterexample: an update request whose body carries id 0, which
differs from the path id 1, is not rejected; because 0 is falsy the
guard passes and the Book is updated and returned with 200. -/
theorem C4_counterexample :
    updateBook initialBooks 1 ⟨some 0, some "Animal Farm", none⟩ =
      (.bookR 200 ⟨1, "Animal Farm", "George Orwell"⟩,
        [⟨1, "Animal Farm", "George Orwell"⟩,
         ⟨2, "The Hobbit", "J.R.R. Tolkien"⟩]) ∧
    (0 : Nat) ≠ 1 := by
  decide

/-- C4 (amended): for every update request whose body contains a truthy
(non-zero) id differing from the path id, the update handler fails with
status 400 and the store is unchanged. -/
theorem C4_mismatched_id_rejected (s : Store) (pid : Nat) (b : Body)
    (n : Nat) (hn : b.id = some n) (h0 : n ≠ 0) (hne : n ≠ pid) :
    updateBook s pid b = (.errR 400 "Updating book ID is not allowed.", s) := by
  unfold updateBook
  have hg : (truthyN b.id && b.id.getD 0 != pid) = true := by
    simp [truthyN, hn, h0, hne]
  simp [hg]

theorem C4_mismatched_id_rejected_witness :
    updateBook initialBooks 1 ⟨some 2, some "Animal Farm", none⟩ =
      (.errR 400 "Updating book ID is not allowed.", initialBooks) :=
  C4_mismatched_id_rejected initialBooks 1 ⟨some 2, some "Animal Farm", none⟩ 2
    (by decide) (by decide) (by decide)

theorem orElseStr_falsy {o : Option String} {d : String}
    (h : truthyS o = false) : orElseStr o d = d := by
  cases o with
  | none => rfl
  | some s =>
    have hs : s = "" := by simpa [truthyS] using h
    simp [orElseStr, hs]

theorem orElseStr_truthy {d : String} (t : String) (ht : t ≠ "") :
    orElseStr (some t) d = t := by
  simp [orElseStr, ht]

theorem updGuard_pass {b : Body} {pid : Nat}
    (hg : truthyN b.id = false ∨ b.id = some pid) :
    (truthyN b.id && b.id.getD 0 != pid) = false := by
  rcases hg with h | h
  · simp [h]
  · simp [h, truthyN]

/-- C5: in every reachable store, a create request carrying no client
id (per the spec, the id is never supplied on creation) whose title and
author are case-insensitively equal to those of some stored Book fails
with 409 and leaves the store unchanged; in particular a second create
of the same (title, author) pair always fails, since the first create
put that pair into the store. -/
theorem C5_duplicate_rejected {s : Store} {b : Body} {bk : Book}
    {t a : String}
    (hs : Reachable s) (hbk : bk ∈ s)
    (hid : truthyN b.id = false)
    (ht : b.title = some t) (ha : b.author = some a)
    (hlt : lowerStr t = lowerStr bk.title)
    (hla : lowerStr a = lowerStr bk.author) :
    createBook s b =
      (.errR 409 "A book with the same title and author already exists", s) := by
  have hne := reachable_nonempty_fields hs bk hbk
  have htne : t ≠ "" := by
    intro hc
    exact lowerStr_ne_empty hne.1 (by rw [← hlt, hc]; decide)
  have hane : a ≠ "" := by
    intro hc
    exact lowerStr_ne_empty hne.2 (by rw [← hla, hc]; decide)
  have hdup : dupWith t a bk = true := by
    simp [dupWith, ← hlt, ← hla]
  unfold createBook
  simp only [hid, Bool.false_eq_true, if_false, ht, ha, Option.getD_some]
  have hcond : ¬ (t = "" ∨ a = "") := by simp [htne, hane]
  rw [if_neg hcond]
  cases hf : s.find? (dupWith t a) with
  | none =>
    exfalso
    exact absurd hdup (by simpa using List.find?_eq_none.mp hf bk hbk)
  | some x => rfl

theorem C5_duplicate_rejected_witness :
    createBook initialBooks ⟨none, some "1984", some "GEORGE ORWELL"⟩ =
      (.errR 409 "A book with the same title and author already exists",
        initialBooks) :=
  @C5_duplicate_rejected initialBooks ⟨none, some "1984", some "GEORGE ORWELL"⟩
    ⟨1, "1984", "George Orwell"⟩ "1984" "GEORGE ORWELL"
    Reachable.init (by decide) (by decide) rfl rfl (by decide) (by decide)

/-- C6: for a stored Book and an update request targeting its id (the
body id, when truthy, agreeing with the path id), falsy body fields do
not overwrite the stored fields, non-empty body fields do, the id is
untouched, and the handler returns 200 with the resulting Book. -/
theorem C6_partial_update {s : Store} {pid : Nat} {b : Body} {bk : Book}
    (hg : truthyN b.id = false ∨ b.id = some pid)
    (hget : getBook s pid = .bookR 200 bk) :
    ∃ s', updateBook s pid b = (.bookR 200 (applyBody bk b), s') ∧
      (truthyS b.title = false → (applyBody bk b).title = bk.title) ∧
      (truthyS b.author = false → (applyBody bk b).author = bk.author) ∧
      (∀ t, b.title = some t → t ≠ "" → (applyBody bk b).title = t) ∧
      (∀ a, b.author = some a → a ≠ "" → (applyBody bk b).author = a) ∧
      (applyBody bk b).id = bk.id := by
  unfold getBook at hget
  cases hf : s.find? (fun x => x.id == pid) with
  | none => rw [hf] at hget; cases hget
  | some bk' =>
    rw [hf] at hget
    cases hget
    rcases @find?_updateFirst pid b s bk hf with ⟨s', hup⟩
    refine ⟨s', ?_, ?_, ?_, ?_, ?_, rfl⟩
    · unfold updateBook
      simp [updGuard_pass hg, hup]
    · intro hfalsy
      simp [applyBody, orElseStr_falsy hfalsy]
    · intro hfalsy
      simp [applyBody, orElseStr_falsy hfalsy]
    · intro t htt htne
      simp [applyBody, htt, orElseStr_truthy t htne]
    · intro a haa hane
      simp [applyBody, haa, orElseStr_truthy a hane]

theorem C6_partial_update_witness :
    ∃ s', updateBook initialBooks 1 ⟨none, some "", some "G. Orwell"⟩ =
      (.bookR 200
        (applyBody ⟨1, "1984", "George Orwell"⟩ ⟨none, some "", some "G. Orwell"⟩),
        s') ∧
      (truthyS (some "") = false →
        (applyBody ⟨1, "1984", "George Orwell"⟩
          ⟨none, some "", some "G. Orwell"⟩).title = "1984") ∧
      (truthyS (some "G. Orwell") = false →
        (applyBody ⟨1, "1984", "George Orwell"⟩
          ⟨none, some "", some "G. Orwell"⟩).author = "George Orwell") ∧
      (∀ t, (some "" : Option String) = some t → t ≠ "" →
        (applyBody ⟨1, "1984", "George Orwell"⟩
          ⟨none, some "", some "G. Orwell"⟩).title = t) ∧
      (∀ a, (some "G. Orwell" : Option String) = some a → a ≠ "" →
        (applyBody ⟨1, "1984", "George Orwell"⟩
          ⟨none, some "", some "G. Orwell"⟩).author = a) ∧
      (applyBody ⟨1, "1984", "George Orwell"⟩
        ⟨none, some "", some "G. Orwell"⟩).id = 1 :=
  @C6_partial_update initialBooks 1 ⟨none, some "", some "G. Orwell"⟩
    ⟨1, "1984", "George Orwell"⟩ (Or.inl (by decide)) (by decide)

/-- C7: when no stored Book carries the requested id, get-by-id, update
(its body-id guard having passed) and delete-one each answer 404 and
leave the store unchanged. -/
theorem C7_missing_id_404 (s : Store) (pid : Nat) (b : Body)
    (hmiss : ∀ bk ∈ s, bk.id ≠ pid)
    (hg : truthyN b.id = false ∨ b.id = some pid) :
    getBook s pid = .errR 404 "Book not found" ∧
    updateBook s pid b = (.errR 404 "Book not found", s) ∧
    deleteBook s pid = (.errR 404 "Book not found", s) := by
  refine ⟨?_, ?_, ?_⟩
  · unfold getBook
    rw [List.find?_eq_none.mpr (fun x hx => by simpa using hmiss x hx)]
  · unfold updateBook
    simp [updGuard_pass hg, updateFirst_none hmiss]
  · unfold deleteBook
    rw [removeFirst_none hmiss]

theorem C7_missing_id_404_witness :
    getBook initialBooks 99 = .errR 404 "Book not found" ∧
    updateBook initialBooks 99 ⟨none, some "X", none⟩ =
      (.errR 404 "Book not found", initialBooks) ∧
    deleteBook initialBooks 99 = (.errR 404 "Book not found", initialBooks) :=
  C7_missing_id_404 initialBooks 99 ⟨none, some "X", none⟩ (by decide)
    (Or.inl (by decide))

/-- C8: for every store and query, search answers 400 when neither
query field is truthy; otherwise it answers 404 when no stored Book
matches, answers 200 with exactly the matching Books when some Book
does, and membership in the result is exactly case-insensitive
substring matching on whichever query fields are given. -/
theorem C8_search_behavior (s : Store) (tq aq : Option String) :
    (truthyS tq = false ∧ truthyS aq = false →
      searchBooks s tq aq =
        .errR 400 "Please provide at least a title or author for search") ∧
    (truthyS tq = true ∨ truthyS aq = true →
      ((∀ bk ∈ s, bookMatches tq aq bk = false) →
        searchBooks s tq aq = .errR 404 "Books not found for search") ∧
      ((∃ bk ∈ s, bookMatches tq aq bk = true) →
        searchBooks s tq aq = .booksR 200 (s.filter (bookMatches tq aq))) ∧
      (∀ bk, bk ∈ s.filter (bookMatches tq aq) ↔
        bk ∈ s ∧ bookMatches tq aq bk = true)) := by
  constructor
  · rintro ⟨h1, h2⟩
    unfold searchBooks
    simp [h1, h2]
  · intro hgiven
    have hcond : (!truthyS tq && !truthyS aq) = false := by
      rcases hgiven with h | h <;> simp [h]
    refine ⟨?_, ?_, fun bk => List.mem_filter⟩
    · intro hnone
      have hfil : s.filter (bookMatches tq aq) = [] :=
        List.filter_eq_nil_iff.mpr (fun x hx => by simp [hnone x hx])
      unfold searchBooks
      simp [hcond, hfil]
    · rintro ⟨bk, hbk, hm⟩
      have hmem : bk ∈ s.filter (bookMatches tq aq) :=
        List.mem_filter.mpr ⟨hbk, hm⟩
      have hne : s.filter (bookMatches tq aq) ≠ [] := List.ne_nil_of_mem hmem
      unfold searchBooks
      simp [hcond, List.isEmpty_iff, hne]

theorem C8_search_behavior_witness :
    searchBooks initialBooks none none =
      .errR 400 "Please provide at least a title or author for search" ∧
    searchBooks initialBooks (some "zzz") none =
      .errR 404 "Books not found for search" ∧
    searchBooks initialBooks (some "hobbit") none =
      .booksR 200 (initialBooks.filter (bookMatches (some "hobbit") none)) :=
  ⟨(C8_search_behavior initialBooks none none).1 ⟨rfl, rfl⟩,
    ((C8_search_behavior initialBooks (some "zzz") none).2
      (Or.inl (by decide))).1 (by decide),
    ((C8_search_behavior initialBooks (some "hobbit") none).2
      (Or.inl (by decide))).2.1
      ⟨⟨2, "The Hobbit", "J.R.R. Tolkien"⟩, by decide, by decide⟩⟩

/-- The configured window length in milliseconds (line 48). -/
def windowMs : Nat := 60000

/-- The configured per-window quota (line 49). -/
def maxPerWindow : Nat := 15

/-- The configured rate-limit message (line 50). -/
def limiterMessage : String := "Too many requests. Slow down."

/-- The per-client counter state of the fixed-window limiter. -/
structure ClientWindow where
  start : Nat
  count : Nat
deriving DecidableEq, Repr

/-- Outcome of the rate limiter for one request: either passed through
to the route handlers, or answered immediately with a status and the
configured message with no downstream component reached. -/
inductive LimResult where
  | allowed
  | limited (status : Nat) (msg : String)
deriving DecidableEq, Repr

/-- Modelled from the spec: the express-rate-limit middleware configured
at src/index.js lines 47-53 is a third-party dependency whose source is
not in the repository.  Per spec section 4.4 it keeps a fixed 60-second
window per identified client with a quota of 15 requests: a request
arriving after the client's window elapsed starts a fresh window and
passes; a request within the window and under quota passes; a request
over quota is answered immediately with a too-many-requests status and
the configured JSON message. -/
def rateLimitStep : Option ClientWindow → Nat → LimResult × Option ClientWindow
  | none, t => (.allowed, some ⟨t, 1⟩)
  | some w, t =>
    if w.start + windowMs ≤ t then (.allowed, some ⟨t, 1⟩)
    else if w.count < maxPerWindow then
      (.allowed, some ⟨w.start, w.count + 1⟩)
    else (.limited 429 limiterMessage, some ⟨w.start, w.count + 1⟩)

/-- Runs a sequence of same-client requests, given by their timestamps,
through the rate limiter. -/
def limRun : Option ClientWindow → List Nat → List LimResult × Option ClientWindow
  | st, [] => ([], st)
  | st, t :: ts =>
    let p := rateLimitStep st t
    let q := limRun p.2 ts
    (p.1 :: q.1, q.2)

theorem limRun_append (l1 : List Nat) :
    ∀ (st : Option ClientWindow) (l2 : List Nat),
      limRun st (l1 ++ l2) =
        ((limRun st l1).1 ++ (limRun (limRun st l1).2 l2).1,
          (limRun (limRun st l1).2 l2).2) := by
  induction l1 with
  | nil => intro st l2; rfl
  | cons t ts ih =>
    intro st l2
    simp only [List.cons_append, limRun, List.append_eq, ih]

theorem limRun_within :
    ∀ (ts : List Nat) (t0 c : Nat), (∀ t ∈ ts, t < t0 + windowMs) →
      c + ts.length ≤ maxPerWindow →
      limRun (some ⟨t0, c⟩) ts =
        (List.replicate ts.length .allowed, some ⟨t0, c + ts.length⟩) := by
  intro ts
  induction ts with
  | nil => intro t0 c _ _; rfl
  | cons t rest ih =>
    intro t0 c hwin hquota
    have ht : t < t0 + windowMs := hwin t (List.mem_cons_self _ _)
    have hlen : (t :: rest).length = rest.length + 1 := rfl
    have hcount : c < maxPerWindow := by
      rw [hlen] at hquota
      omega
    have hstep : rateLimitStep (some ⟨t0, c⟩) t = (.allowed, some ⟨t0, c + 1⟩) := by
      simp only [rateLimitStep]
      rw [if_neg (by omega), if_pos hcount]
    have hrest := ih t0 (c + 1)
      (fun x hx => hwin x (List.mem_cons_of_mem _ hx))
      (by rw [hlen] at hquota; omega)
    have harith : c + 1 + rest.length = c + (rest.length + 1) := by omega
    simp only [limRun, hstep, hrest, List.length_cons, List.replicate_succ, harith]

/-- C9: among 16 same-client requests whose timestamps all fall inside
the fixed window opened by the first request, the first 15 pass the rate
limiter and the 16th is answered with a too-many-requests status and the
configured message, no downstream component being reached; a request at
or after the window's end is allowed again.  The limiter itself is
modelled from the spec, its library source not being in the repository. -/
theorem C9_rate_limit (t0 : Nat) (ts : List Nat) (t' : Nat)
    (hlen : ts.length = 15)
    (hwin : ∀ t ∈ ts, t < t0 + windowMs)
    (hlater : t0 + windowMs ≤ t') :
    (limRun none (t0 :: ts)).1 =
      List.replicate 15 .allowed ++ [.limited 429 limiterMessage] ∧
    (rateLimitStep (limRun none (t0 :: ts)).2 t').1 = .allowed := by
  have hne : ts ≠ [] := by
    intro h
    rw [h] at hlen
    simp at hlen
  have hsplit : ts.dropLast ++ [ts.getLast hne] = ts :=
    List.dropLast_append_getLast hne
  have hlast_mem : ts.getLast hne ∈ ts := List.getLast_mem hne
  have hlenl : ts.dropLast.length = 14 := by
    rw [List.length_dropLast, hlen]
  have hstep0 : rateLimitStep none t0 = (.allowed, some ⟨t0, 1⟩) := rfl
  have h14 := limRun_within ts.dropLast t0 1
    (fun x hx => hwin x (by rw [← hsplit]; exact List.mem_append_left _ hx))
    (by rw [hlenl]; decide)
  rw [hlenl] at h14
  norm_num at h14
  have hlaststep : rateLimitStep (some ⟨t0, 15⟩) (ts.getLast hne) =
      (.limited 429 limiterMessage, some ⟨t0, 16⟩) := by
    simp only [rateLimitStep]
    rw [if_neg (by have := hwin _ hlast_mem; omega), if_neg (by decide)]
  have hts : limRun (some ⟨t0, 1⟩) ts =
      (List.replicate 14 .allowed ++ [.limited 429 limiterMessage],
        some ⟨t0, 16⟩) := by
    rw [← hsplit, limRun_append, h14]
    simp only [limRun, hlaststep]
  have hcons : limRun none (t0 :: ts) =
      (.allowed :: (limRun (some ⟨t0, 1⟩) ts).1,
        (limRun (some ⟨t0, 1⟩) ts).2) := by
    simp only [limRun, hstep0]
  constructor
  · rw [hcons]
    simp only [hts, List.replicate_succ, List.cons_append]
  · rw [hcons]
    simp only [hts]
    simp only [rateLimitStep]
    rw [if_pos hlater]

theorem C9_rate_limit_witness :
    (limRun none (0 :: List.replicate 15 1)).1 =
      List.replicate 15 .allowed ++ [.limited 429 limiterMessage] ∧
    (rateLimitStep (limRun none (0 :: List.replicate 15 1)).2 60000).1 =
      .allowed :=
  C9_rate_limit 0 (List.replicate 15 1) 60000 (by decide) (by decide)
    (by decide)

/-- C10: at process start the store holds exactly the two seeded Books
in order, the first list request with default pagination (page 1, limit
10) returns both, and any valid first create is assigned id 3. -/
theorem C10_initial_state :
    initialBooks =
      [⟨1, "1984", "George Orwell"⟩, ⟨2, "The Hobbit", "J.R.R. Tolkien"⟩] ∧
    listBooks initialBooks 1 10 =
      .booksR 200
        [⟨1, "1984", "George Orwell"⟩, ⟨2, "The Hobbit", "J.R.R. Tolkien"⟩] ∧
    (∀ b t a, truthyN b.id = false → b.title = some t → t ≠ "" →
      b.author = some a → a ≠ "" →
      initialBooks.find? (dupWith t a) = none →
      createBook initialBooks b =
        (.bookR 201 ⟨3, t, a⟩, initialBooks ++ [⟨3, t, a⟩])) := by
  refine ⟨rfl, by decide, ?_⟩
  intro b t a hid ht htne ha hane hdup
  unfold createBook
  simp only [hid, Bool.false_eq_true, if_false, ht, ha, Option.getD_some]
  rw [if_neg (by simp [htne, hane]), hdup]
  rfl

theorem C10_initial_state_witness :
    createBook initialBooks ⟨none, some "Brave New World", some "Aldous Huxley"⟩ =
      (.bookR 201 ⟨3, "Brave New World", "Aldous Huxley"⟩,
        initialBooks ++ [⟨3, "Brave New World", "Aldous Huxley"⟩]) :=
  C10_initial_state.2.2 ⟨none, some "Brave New World", some "Aldous Huxley"⟩
    "Brave New World" "Aldous Huxley" (by decide) rfl (by decide) rfl
    (by decide) (by decide)
